import Mathlib

/-!
Verification of the workshop-assignment program (assign_workshops.py).

The Python program is embedded shallowly:

* Pandas data frames of preference records become lists of PrefRecord.
* Python dicts become association lists with List.lookup; the dicts built
  by the program have unique keys, and where a proof needs that fact it is
  an explicit Nodup hypothesis.
* The PuLP model built by solve_group is embedded as predicates over an
  assignment valuation (the solver engine itself is an external black box,
  so the engine output is an explicit parameter sol; the post-solve row
  construction and the in-place capacity decrement of solve_group are
  embedded as pure functions of sol).
* Python ints are Int where subtraction can occur (capacities), Nat for
  ranks, counts and timestamps (timestamps are abstracted to Nat, order
  preserving).
-/

namespace AssignWorkshops

abbrev Student := String
abbrev Workshop := String
abbrev ZoneName := String
abbrev Day := String

/-- A key of the capacity dictionary: the (Workshop, Day, Session) triple
used by cap_map and full_map in assign_workshops.py. -/
structure SlotKey where
  w : Workshop
  d : Day
  t : Nat
deriving DecidableEq, Repr

/-- One row of the preference CSV after parsing: Student, Zone, Workshop,
Rank, and the parsed submission date (abstracted to a Nat, order
preserving). -/
structure PrefRecord where
  student : Student
  zone : ZoneName
  workshop : Workshop
  rank : Nat
  parsedDate : Nat
deriving DecidableEq, Repr

/-- One grouped row of the schedule table as produced in main by the
groupby over (Day, Workshop Title, Session, Full_Day_Session) with summed
Capacity. -/
structure SchedRow where
  day : Day
  w : Workshop
  t : Nat
  fullDay : Bool
  cap : Int
deriving DecidableEq, Repr

/-- One output assignment row (Student, Zone, Day, Session, Workshop
Title), as appended by solve_group. -/
structure Row where
  student : Student
  zone : ZoneName
  day : Day
  session : Nat
  workshop : Workshop
deriving DecidableEq, Repr

/-- The slot a row occupies. -/
def rowSlot (r : Row) : SlotKey := ⟨r.workshop, r.day, r.session⟩

/-! ## Domain loader (build_zone_map, build_costs, build_student_dates) -/

/-- build_zone_map: prefs.groupby('Workshop')['Zone'].first().to_dict() —
for each workshop title, the zone of its first-occurring preference
record. -/
def build_zone_map (prefs : List PrefRecord) : List (Workshop × ZoneName) :=
  prefs.foldl
    (fun acc r =>
      if (acc.lookup r.workshop).isSome then acc
      else acc ++ [(r.workshop, r.zone)])
    []

/-- Replace the value stored for a key of an association list. -/
def setAssoc (l : List ((Student × Workshop) × Nat))
    (k : Student × Workshop) (v : Nat) : List ((Student × Workshop) × Nat) :=
  l.map (fun e => if e.1 = k then (e.1, v) else e)

/-- build_costs: fold over the records, keeping for each (Student,
Workshop) key the minimum of the ranks seen (cost[key] = min(r.Rank,
cost.get(key, r.Rank))). -/
def build_costs (prefs : List PrefRecord) :
    List ((Student × Workshop) × Nat) :=
  prefs.foldl
    (fun acc r =>
      let key := (r.student, r.workshop)
      match acc.lookup key with
      | some c => setAssoc acc key (min r.rank c)
      | none => acc ++ [(key, r.rank)])
    []

/-- build_student_dates: prefs.groupby('Student')['Parsed_Date'].first()
.to_dict() — for each student, the parsed date of the student's
first-occurring preference record. -/
def build_student_dates (prefs : List PrefRecord) : List (Student × Nat) :=
  prefs.foldl
    (fun acc r =>
      if (acc.lookup r.student).isSome then acc
      else acc ++ [(r.student, r.parsedDate)])
    []

/-! ## Objective coefficients (solve_group, objective section) -/

/-- The objective coefficient of one decision variable: cost.get((s, w),
99). -/
def objCoeff (cost : List ((Student × Workshop) × Nat))
    (s : Student) (w : Workshop) : Nat :=
  (cost.lookup (s, w)).getD 99

/-- The maximum rank stored in the cost map (0 for an empty map); this is
the quantity the spec compares the unranked-pair penalty against. -/
def maxObservedRank (cost : List ((Student × Workshop) × Nat)) : Nat :=
  (cost.map (fun e => e.2)).foldl max 0

/-! ## Sequencer: forced pre-assignments and capacity build (main) -/

/-- The pre_assign dictionary hardcoded in main: the forced slot lists of
the two forced students. -/
def pre_assign : List (Student × List SlotKey) :=
  [("jesse wolters",
    [⟨"Vissen", "Tuesday", 1⟩,
     ⟨"Papier leer", "Tuesday", 2⟩,
     ⟨"Hond in de hoofdrol", "Wednesday", 1⟩,
     ⟨"Vuvuzela maken", "Wednesday", 2⟩,
     ⟨"Naar de kaasboerderij", "Thursday", 0⟩]),
   ("niels hielkema",
    [⟨"Vissen", "Tuesday", 1⟩,
     ⟨"Papier leer", "Tuesday", 2⟩,
     ⟨"Hond in de hoofdrol", "Wednesday", 1⟩,
     ⟨"Vuvuzela maken", "Wednesday", 2⟩,
     ⟨"Naar de kaasboerderij", "Thursday", 0⟩])]

/-- One entry of cap_map as built in main: the row's capacity minus one
per forced student whose slot list contains the row's (w, d, t) triple
(the inner loop over pre_assign.items() with `if (w, d, t) in slots:
cap -= 1`). -/
def buildCapEntry (row : SchedRow) : SlotKey × Int :=
  (⟨row.w, row.day, row.t⟩,
   row.cap -
     (pre_assign.countP
       (fun p => p.2.contains (⟨row.w, row.day, row.t⟩ : SlotKey)) : Int))

/-- The cap_map built in main from the grouped schedule rows, with the
forced seats already subtracted. -/
def build_cap_map (grp : List SchedRow) : List (SlotKey × Int) :=
  grp.map buildCapEntry

/-! ## Constraint builder (solve_group, model construction) -/

/-- The data solve_group builds its model from: the zone map, the cost
map, the keys of cap_map, and full_map (total on the keys it is consulted
at, like the Python dict). -/
structure Inst where
  zone_map : List (Workshop × ZoneName)
  cost : List ((Student × Workshop) × Nat)
  capKeys : List SlotKey
  full_map : SlotKey → Bool

/-- The rank used for tier classification: cost.get((s, w), 999). -/
def prefRank (cost : List ((Student × Workshop) × Nat))
    (s : Student) (w : Workshop) : Nat :=
  (cost.lookup (s, w)).getD 999

/-- The keys of the half_pairs comprehension for zone z: capacity keys
that are not full-day and whose workshop maps to z. -/
def halfKeys (I : Inst) (z : ZoneName) : List SlotKey :=
  I.capKeys.filter
    (fun k => !I.full_map k && (I.zone_map.lookup k.w == some z))

/-- The variable keys of the full_pairs comprehension for zone z:
full-day capacity keys whose workshop maps to z; the variable indexed is
x[(s, w, d, 0)], so the key is taken at session 0. -/
def fullKeys (I : Inst) (z : ZoneName) : List SlotKey :=
  (I.capKeys.filter
      (fun k => I.full_map k && (I.zone_map.lookup k.w == some z))).map
    (fun k => ⟨k.w, k.d, 0⟩)

/-- The distinct workshop titles occurring among the zone's half and full
pairs (the Python code forms sets of titles, so titles are deduplicated). -/
def zoneTitles (I : Inst) (z : ZoneName) : List Workshop :=
  ((halfKeys I z ++ fullKeys I z).map SlotKey.w).dedup

/-- rank1_set: the distinct titles in the zone with cost.get((s,w),999)
equal to 1. -/
def rank1Set (I : Inst) (s : Student) (z : ZoneName) : List Workshop :=
  (zoneTitles I z).filter (fun w => prefRank I.cost s w == 1)

/-- rank2_set: the distinct titles in the zone with cost.get((s,w),999)
equal to 2 that are not already in rank1_set. -/
def rank2Set (I : Inst) (s : Student) (z : ZoneName) : List Workshop :=
  (zoneTitles I z).filter
    (fun w => prefRank I.cost s w == 2 && !(rank1Set I s z).contains w)

/-- first_half: half-pair variables whose title lies in rank1_set. -/
def firstHalf (I : Inst) (s : Student) (z : ZoneName) : List SlotKey :=
  (halfKeys I z).filter (fun k => (rank1Set I s z).contains k.w)

/-- first_full: full-pair variables whose title lies in rank1_set. -/
def firstFull (I : Inst) (s : Student) (z : ZoneName) : List SlotKey :=
  (fullKeys I z).filter (fun k => (rank1Set I s z).contains k.w)

/-- second_half: half-pair variables whose title lies in rank2_set. -/
def secondHalf (I : Inst) (s : Student) (z : ZoneName) : List SlotKey :=
  (halfKeys I z).filter (fun k => (rank2Set I s z).contains k.w)

/-- second_full: full-pair variables whose title lies in rank2_set. -/
def secondFull (I : Inst) (s : Student) (z : ZoneName) : List SlotKey :=
  (fullKeys I z).filter (fun k => (rank2Set I s z).contains k.w)

/-- other_half: half-pair variables whose title is in neither preferred
set. -/
def otherHalf (I : Inst) (s : Student) (z : ZoneName) : List SlotKey :=
  (halfKeys I z).filter
    (fun k => !(rank1Set I s z).contains k.w &&
      !(rank2Set I s z).contains k.w)

/-- other_full: full-pair variables whose title is in neither preferred
set. -/
def otherFull (I : Inst) (s : Student) (z : ZoneName) : List SlotKey :=
  (fullKeys I z).filter
    (fun k => !(rank1Set I s z).contains k.w &&
      !(rank2Set I s z).contains k.w)

/-- fsz: first-tier slot-units of an assignment (half counts 1, full
counts 2), exactly lpSum(first_half) + 2*lpSum(first_full) under the 0/1
valuation a. -/
def fszUnits (I : Inst) (s : Student) (z : ZoneName)
    (a : SlotKey → Bool) : Nat :=
  (firstHalf I s z).countP a + 2 * (firstFull I s z).countP a

/-- ssz: second-tier slot-units of an assignment. -/
def sszUnits (I : Inst) (s : Student) (z : ZoneName)
    (a : SlotKey → Bool) : Nat :=
  (secondHalf I s z).countP a + 2 * (secondFull I s z).countP a

/-- osz: other-tier slot-units of an assignment. -/
def oszUnits (I : Inst) (s : Student) (z : ZoneName)
    (a : SlotKey → Bool) : Nat :=
  (otherHalf I s z).countP a + 2 * (otherFull I s z).countP a

/-- allow_random: 1 if len(rank2_set)==0 else 0. -/
def allowRandom (I : Inst) (s : Student) (z : ZoneName) : Nat :=
  if (rank2Set I s z).length = 0 then 1 else 0

/-- The TwoPerZone constraint: fsz + ssz + osz == 2. -/
def twoPerZone (I : Inst) (s : Student) (z : ZoneName)
    (a : SlotKey → Bool) : Prop :=
  fszUnits I s z a + sszUnits I s z a + oszUnits I s z a = 2

/-- The UseSeconds constraint: ssz >= 2 - fsz (over integers, as in the
linear program). -/
def useSeconds (I : Inst) (s : Student) (z : ZoneName)
    (a : SlotKey → Bool) : Prop :=
  (sszUnits I s z a : Int) ≥ 2 - (fszUnits I s z a : Int)

/-- The RandLimit constraint: osz <= allow_random. -/
def randLimit (I : Inst) (s : Student) (z : ZoneName)
    (a : SlotKey → Bool) : Prop :=
  oszUnits I s z a ≤ allowRandom I s z

/-- The conjunction of the three per-(student, zone) constraints. -/
def zoneFeasible (I : Inst) (s : Student) (z : ZoneName)
    (a : SlotKey → Bool) : Prop :=
  twoPerZone I s z a ∧ useSeconds I s z a ∧ randLimit I s z a

/-- The participant's distinct preferred (rank 1 or rank 2) titles in the
zone; rank1Set and rank2Set are disjoint by construction, so
concatenation does not repeat a title. -/
def preferredTitles (I : Inst) (s : Student) (z : ZoneName) :
    List Workshop :=
  rank1Set I s z ++ rank2Set I s z

/-- Modelled from the spec's words for the RandLimit rule, for comparison
with the randLimit actually built by solve_group: up to the shortfall
below 2 of the participant's distinct preferred titles may come from the
other tier. -/
def randLimitSpec (I : Inst) (s : Student) (z : ZoneName)
    (a : SlotKey → Bool) : Prop :=
  oszUnits I s z a ≤ 2 - (preferredTitles I s z).length

/-! ## Constraint builder: one slot per day and session -/

/-- The tag of one OnePerSlot constraint: for a student, a day, and a
session number (1 or 2). -/
structure DayConstraint where
  student : Student
  day : Day
  sess : Nat
deriving DecidableEq, Repr

/-- The list of OnePerSlot constraints generated by the double loop over
students and days: for each pair one session-1 and one session-2
constraint. -/
def onePerSlotConstraints (students : List Student) (days : List Day) :
    List DayConstraint :=
  students.flatMap
    (fun s => days.flatMap (fun d => [⟨s, d, 1⟩, ⟨s, d, 2⟩]))

/-- The variables of the session-1 sum of the OnePerSlot constraint of a
day: capacity keys of that day with session 1. -/
def sess1Terms (I : Inst) (d : Day) : List SlotKey :=
  I.capKeys.filter (fun k => k.d == d && k.t == 1)

/-- The variables of the session-2 sum: capacity keys of that day with
session 2. -/
def sess2Terms (I : Inst) (d : Day) : List SlotKey :=
  I.capKeys.filter (fun k => k.d == d && k.t == 2)

/-- The variables of the full-day sum shared by both constraints of a
day: capacity keys of that day with session 0 and the full-day flag set. -/
def fullTerms (I : Inst) (d : Day) : List SlotKey :=
  I.capKeys.filter (fun k => k.d == d && k.t == 0 && I.full_map k)

/-- The session-1 OnePerSlot constraint of a day for one student's
valuation: the session-1 sum plus the full-day sum equals exactly 1. -/
def sess1Holds (I : Inst) (d : Day) (a : SlotKey → Bool) : Prop :=
  (sess1Terms I d).countP a + (fullTerms I d).countP a = 1

/-- The session-2 OnePerSlot constraint of a day. -/
def sess2Holds (I : Inst) (d : Day) (a : SlotKey → Bool) : Prop :=
  (sess2Terms I d).countP a + (fullTerms I d).countP a = 1

/-- Satisfaction of a tagged OnePerSlot constraint by a full valuation. -/
def dayConstraintHolds (I : Inst) (c : DayConstraint)
    (A : Student → SlotKey → Bool) : Prop :=
  if c.sess = 1 then sess1Holds I c.day (A c.student)
  else sess2Holds I c.day (A c.student)

/-! ## Cohort solver post-processing (solve_group, after prob.solve)

The optimization engine is an external black box; its returned variable
values are the explicit parameter sol.  After the solve, solve_group
walks x.items() (students outer, capacity keys inner, insertion order),
appends one output row per variable set to 1, and decrements that slot's
capacity in place. -/

/-- The row built for a selected variable: Student, zone_map[w], Day,
Session, Workshop Title.  (The zone lookup is total here; the partial
KeyError-raising behaviour is modelled by solve_group_checked below.) -/
def mkRow (zone_map : List (Workshop × ZoneName)) (s : Student)
    (k : SlotKey) : Row :=
  ⟨s, (zone_map.lookup k.w).getD "", k.d, k.t, k.w⟩

/-- The output rows of solve_group: for each student in order, one row
per capacity entry whose variable the solver set to 1. -/
def solveRows (zone_map : List (Workshop × ZoneName))
    (students : List Student) (cap_map : List (SlotKey × Int))
    (sol : Student → SlotKey → Bool) : List Row :=
  students.flatMap
    (fun s =>
      (cap_map.filter (fun kc => sol s kc.1)).map
        (fun kc => mkRow zone_map s kc.1))

/-- The in-place capacity decrement of solve_group: each entry loses one
unit per student assigned to its slot. -/
def updateCap (students : List Student) (cap_map : List (SlotKey × Int))
    (sol : Student → SlotKey → Bool) : List (SlotKey × Int) :=
  cap_map.map
    (fun kc =>
      (kc.1, kc.2 - (students.countP (fun s => sol s kc.1) : Int)))

/-- solve_group as observed through its result and its effect on
cap_map: the early return [] for an empty student list leaves cap_map
untouched; otherwise the rows are built and the capacities decremented
as in the final loop of the Python function. -/
def solve_group (students : List Student)
    (zone_map : List (Workshop × ZoneName))
    (cap_map : List (SlotKey × Int))
    (sol : Student → SlotKey → Bool) :
    List Row × List (SlotKey × Int) :=
  if students.isEmpty then ([], cap_map)
  else (solveRows zone_map students cap_map sol,
        updateCap students cap_map sol)

/-! ## Cohort solver with explicit KeyError modelling -/

/-- zones = sorted(set(zone_map.values())); only membership and
emptiness of this list matter to the model, so the sort is dropped and
the deduplicated value list kept. -/
def zonesOf (zone_map : List (Workshop × ZoneName)) : List ZoneName :=
  (zone_map.map Prod.snd).dedup

/-- The zone lookups performed while building half_pairs and full_pairs
for one (student, zone) iteration: zone_map[w] is evaluated for every
capacity key (non-full keys in the half comprehension, full keys in the
full comprehension), raising KeyError at the first missing workshop. -/
def checkZones (zone_map : List (Workshop × ZoneName)) :
    List SlotKey → Except Workshop Unit
  | [] => Except.ok ()
  | k :: ks =>
    match zone_map.lookup k.w with
    | some _ => checkZones zone_map ks
    | none => Except.error k.w

/-- The (student, slot) pairs whose variable the solver set to 1, in the
iteration order of the final loop of solve_group. -/
def selectedPairs (students : List Student)
    (cap_map : List (SlotKey × Int)) (sol : Student → SlotKey → Bool) :
    List (Student × SlotKey) :=
  students.flatMap
    (fun s =>
      (cap_map.filter (fun kc => sol s kc.1)).map (fun kc => (s, kc.1)))

/-- The row-building loop with its zone_map[w] lookup made explicit:
errors at the first selected slot whose workshop is missing from the
zone map. -/
def buildRowsChecked (zone_map : List (Workshop × ZoneName)) :
    List (Student × SlotKey) → Except Workshop (List Row)
  | [] => Except.ok []
  | (s, k) :: rest =>
    match zone_map.lookup k.w with
    | some z =>
      match buildRowsChecked zone_map rest with
      | Except.ok rs => Except.ok (⟨s, z, k.d, k.t, k.w⟩ :: rs)
      | Except.error w => Except.error w
    | none => Except.error k.w

/-- solve_group with its dictionary lookups modelled as Except: after
the early return for an empty cohort, every (student, zone) iteration of
the constraint-building loop evaluates zone_map[w] for every capacity
key (each iteration performs the same lookups, so a single scan captures
the error semantics), and the final row loop looks up zone_map[w] for
each selected slot. -/
def solve_group_checked (students : List Student)
    (zone_map : List (Workshop × ZoneName))
    (cap_map : List (SlotKey × Int))
    (sol : Student → SlotKey → Bool) :
    Except Workshop (List Row × List (SlotKey × Int)) :=
  if students.isEmpty then Except.ok ([], cap_map)
  else
    let scan :=
      if (zonesOf zone_map).isEmpty then Except.ok ()
      else checkZones zone_map (cap_map.map Prod.fst)
    match scan with
    | Except.error w => Except.error w
    | Except.ok () =>
      match buildRowsChecked zone_map
          (selectedPairs students cap_map sol) with
      | Except.error w => Except.error w
      | Except.ok rows =>
        Except.ok (rows, updateCap students cap_map sol)

/-! ## Sequencer (main, cohort phase)

Lines 373-377 of main run the three cohort solves unconditionally, each
seeing the capacity table left by the previous one, and concatenate the
returned rows.  The engine output of each invocation is a separate
parameter. -/

/-- The cohort phase of main: rows += solve_group(early); rows +=
solve_group(mid); rows += solve_group(late), sharing cap_map. -/
def mainCohortPhase (zone_map : List (Workshop × ZoneName))
    (early mid late : List Student) (cap0 : List (SlotKey × Int))
    (sol1 sol2 sol3 : Student → SlotKey → Bool) :
    List Row × List (SlotKey × Int) :=
  let p1 := solve_group early zone_map cap0 sol1
  let p2 := solve_group mid zone_map p1.2 sol2
  let p3 := solve_group late zone_map p2.2 sol3
  (p1.1 ++ p2.1 ++ p3.1, p3.2)

/-! ## Helper lemmas about association-list lookup -/

theorem lookup_append {α β : Type} [BEq α] (l1 l2 : List (α × β)) (k : α) :
    (l1 ++ l2).lookup k = (l1.lookup k).or (l2.lookup k) := by
  induction l1 with
  | nil => simp [List.lookup]
  | cons e t ih =>
    obtain ⟨a, b⟩ := e
    cases hk : k == a <;> simp [List.lookup, hk, ih]

theorem lookup_mem {α β : Type} [BEq α] [LawfulBEq α]
    {l : List (α × β)} {k : α} {v : β} (h : l.lookup k = some v) :
    (k, v) ∈ l := by
  induction l with
  | nil => simp [List.lookup] at h
  | cons e t ih =>
    obtain ⟨a, b⟩ := e
    cases hk : k == a
    · simp only [List.lookup, hk] at h
      exact List.mem_cons_of_mem _ (ih h)
    · simp only [List.lookup, hk] at h
      obtain rfl : b = v := by injection h
      obtain rfl : k = a := eq_of_beq hk
      exact List.mem_cons_self _ _

theorem lookup_map_entry {α β γ : Type} [BEq α] [LawfulBEq α]
    (f : α → β → γ) (l : List (α × β)) (k : α) :
    (l.map (fun kc => (kc.1, f kc.1 kc.2))).lookup k
      = (l.lookup k).map (f k) := by
  induction l with
  | nil => simp [List.lookup]
  | cons e t ih =>
    obtain ⟨a, b⟩ := e
    cases hk : k == a
    · simp [List.lookup, hk, ih]
    · obtain rfl : k = a := eq_of_beq hk
      simp [List.lookup, ih]

/-! ## C4: the submission-timestamp map -/

/-- The fold of build_student_dates keeps, for each student, the first
record's date; stated with an arbitrary accumulator for the induction. -/
theorem dates_fold_lookup (l : List PrefRecord)
    (acc : List (Student × Nat)) (s : Student) :
    (l.foldl
        (fun acc r =>
          if (acc.lookup r.student).isSome then acc
          else acc ++ [(r.student, r.parsedDate)])
        acc).lookup s
      = (acc.lookup s).or
          ((l.find? (fun r => r.student == s)).map PrefRecord.parsedDate) := by
  induction l generalizing acc with
  | nil => simp
  | cons r t ih =>
    simp only [List.foldl, ih]
    by_cases hp : r.student == s
    · obtain hps : r.student = s := eq_of_beq hp
      subst hps
      by_cases hacc : (acc.lookup r.student).isSome
      · obtain ⟨v, hv⟩ := Option.isSome_iff_exists.mp hacc
        simp [hacc, hv, List.find?, hp]
      · obtain hnone : acc.lookup r.student = none :=
          Option.not_isSome_iff_eq_none.mp hacc
        simp [hacc, lookup_append, hnone, List.lookup, List.find?, hp]
    · have hfind : (r :: t).find? (fun r => r.student == s)
          = t.find? (fun r => r.student == s) := by
        simp [List.find?, hp]
      by_cases hacc : (acc.lookup r.student).isSome
      · simp [hacc, hfind]
      · have hsk : (s == r.student) = false := by
          by_cases h : s == r.student
          · obtain rfl : s = r.student := eq_of_beq h
            simp at hp
          · simpa using h
        simp only [hacc, if_false, Bool.false_eq_true, lookup_append]
        rw [hfind]
        simp [List.lookup, hsk]

/-- C4 (amended): build_student_dates maps each student to the parsed
date of that student's first-occurring preference record (pandas
groupby.first), not to the minimum date. -/
theorem build_student_dates_eq_first (prefs : List PrefRecord)
    (s : Student) :
    (build_student_dates prefs).lookup s
      = (prefs.find? (fun r => r.student == s)).map PrefRecord.parsedDate := by
  unfold build_student_dates
  rw [dates_fold_lookup]
  simp [List.lookup]

/-- Two records of the same student with the later submission first. -/
def prefsC4 : List PrefRecord :=
  [⟨"alice", "Z", "A", 1, 5⟩, ⟨"alice", "Z", "B", 2, 3⟩]

/-- C4 counterexample: with the later-dated record first,
build_student_dates returns 5, while the earliest (minimum) timestamp of
alice's records is 3. -/
theorem C4_counterexample :
    (build_student_dates prefsC4).lookup "alice" = some 5 ∧
    ((prefsC4.filter (fun r => r.student == "alice")).map
        PrefRecord.parsedDate).min? = some 3 ∧
    (5 : Nat) ≠ 3 := by
  refine ⟨by decide, by decide, by decide⟩

/-! ## C3: the unranked-pair penalty -/

/-- A cost map containing an observed rank of 99. -/
def costC3 : List ((Student × Workshop) × Nat) := [(("ann", "W"), 99)]

/-- C3 counterexample: the pair (ann, V) has no entry in costC3, its
objective coefficient is the constant 99, and 99 is not strictly greater
than the maximum observed rank 99. -/
theorem C3_counterexample :
    costC3.lookup ("ann", "V") = none ∧
    objCoeff costC3 "ann" "V" = 99 ∧
    maxObservedRank costC3 = 99 ∧
    ¬ maxObservedRank costC3 < objCoeff costC3 "ann" "V" := by
  refine ⟨by decide, by decide, by decide, by decide⟩

theorem foldl_max_le {l : List Nat} {b : Nat} (h : ∀ x ∈ l, x ≤ b)
    {acc : Nat} (hacc : acc ≤ b) : l.foldl max acc ≤ b := by
  induction l generalizing acc with
  | nil => simpa using hacc
  | cons a t ih =>
    exact ih (fun x hx => h x (List.mem_cons_of_mem _ hx))
      (Nat.max_le.mpr ⟨hacc, h a (List.mem_cons_self _ _)⟩)

/-- C3 (amended): the objective assigns every pair absent from the cost
map the constant coefficient 99, which exceeds the maximum observed rank
exactly when every observed rank is at most 98. -/
theorem objCoeff_gt_max_of_small_ranks
    (cost : List ((Student × Workshop) × Nat)) (s : Student)
    (w : Workshop) (hmiss : cost.lookup (s, w) = none)
    (hb : ∀ e ∈ cost, e.2 ≤ 98) :
    objCoeff cost s w = 99 ∧ maxObservedRank cost < objCoeff cost s w := by
  have hcoeff : objCoeff cost s w = 99 := by
    simp [objCoeff, hmiss]
  refine ⟨hcoeff, ?_⟩
  rw [hcoeff]
  have : maxObservedRank cost ≤ 98 := by
    apply foldl_max_le
    · intro x hx
      obtain ⟨e, he, rfl⟩ := List.mem_map.mp hx
      exact hb e he
    · exact Nat.zero_le 98
  omega

/-- A cost map with small ranks for the witness of C3's amended claim. -/
def costC3w : List ((Student × Workshop) × Nat) := [(("ann", "W"), 3)]

/-- Witness for the amended C3 at a concrete input. -/
theorem objCoeff_gt_max_witness :
    costC3w.lookup ("ann", "V") = none ∧
    (∀ e ∈ costC3w, e.2 ≤ 98) ∧
    (objCoeff costC3w "ann" "V" = 99 ∧
      maxObservedRank costC3w < objCoeff costC3w "ann" "V") :=
  ⟨by decide, by decide,
    objCoeff_gt_max_of_small_ranks costC3w "ann" "V" (by decide) (by decide)⟩

/-! ## C5: residual capacity of the forced slot (Vissen, Tuesday, 1) -/

/-- A schedule with the (Vissen, Tuesday, 1) slot at capacity 14. -/
def schedC5 : List SchedRow := [⟨"Tuesday", "Vissen", 1, false, 14⟩]

/-- C5 counterexample: with original capacity 14, the built cap_map holds
12 for (Vissen, Tuesday, 1) — both forced students occupy that slot — so
the residual is not 14 - 1. -/
theorem C5_counterexample :
    (build_cap_map schedC5).lookup ⟨"Vissen", "Tuesday", 1⟩ = some 12 ∧
    (12 : Int) ≠ 14 - 1 := by
  refine ⟨by decide, by decide⟩

/-- C5 (amended): for any original capacity c, after the forced
pre-assignments the residual capacity of (Vissen, Tuesday, 1) is c - 2:
the slot appears in the forced lists of both jesse wolters and niels
hielkema, and main subtracts one seat per forced student holding it. -/
theorem vissen_residual_minus_two (c : Int) :
    (build_cap_map [⟨"Tuesday", "Vissen", 1, false, c⟩]).lookup
        ⟨"Vissen", "Tuesday", 1⟩ = some (c - 2) := by
  have h2 : (pre_assign.countP
      (fun p => decide ((⟨"Vissen", "Tuesday", 1⟩ : SlotKey) ∈ p.2))) = 2 := by
    decide
  simp [build_cap_map, buildCapEntry, List.lookup, h2]

/-! ## C1: the RandLimit rule -/

/-- An instance where student s has exactly one distinct preferred title
(the rank-2 title A) in zone Z. -/
def instC1 : Inst :=
  { zone_map := [("A", "Z"), ("B", "Z")]
    cost := [(("s", "A"), 2)]
    capKeys := [⟨"A", "Mon", 1⟩, ⟨"B", "Mon", 2⟩]
    full_map := fun _ => false }

/-- A valuation taking one other-tier unit (the unranked workshop B). -/
def aC1 : SlotKey → Bool := fun k => k.w == "B"

/-- C1 counterexample: student s has one distinct preferred title in
zone Z, so the claimed rule would permit 2 - 1 = 1 other-tier unit and
the valuation taking one unit of B satisfies it; but the RandLimit
constraint actually built (osz less-or-equal 1 only when rank2_set is
empty, else 0) rejects that valuation. -/
theorem C1_counterexample :
    (preferredTitles instC1 "s" "Z").length = 1 ∧
    randLimitSpec instC1 "s" "Z" aC1 ∧
    ¬ randLimit instC1 "s" "Z" aC1 := by
  refine ⟨by decide, ?_, ?_⟩
  · show oszUnits instC1 "s" "Z" aC1 ≤
      2 - (preferredTitles instC1 "s" "Z").length
    decide
  · show ¬ oszUnits instC1 "s" "Z" aC1 ≤ allowRandom instC1 "s" "Z"
    decide

/-- C1 (amended): the RandLimit constraint built by solve_group permits
at most one other-tier unit and only when the participant has no
distinct rank-2 title in the zone; with any rank-2 title present it
forces zero other-tier units.  The count of rank-1 titles plays no
role. -/
theorem randLimit_iff (I : Inst) (s : Student) (z : ZoneName)
    (a : SlotKey → Bool) :
    randLimit I s z a ↔
      ((rank2Set I s z = [] ∧ oszUnits I s z a ≤ 1) ∨
       (rank2Set I s z ≠ [] ∧ oszUnits I s z a = 0)) := by
  unfold randLimit allowRandom
  by_cases h : (rank2Set I s z).length = 0
  · have he : rank2Set I s z = [] := List.length_eq_zero.mp h
    simp [h, he]
  · have hne : rank2Set I s z ≠ [] := fun hc => h (by simp [hc])
    simp [h, hne, Nat.le_zero]

/-! ## C6: a participant with no preferences in a zone -/

theorem zone_infeasible_of_no_pref (I : Inst) (s : Student) (z : ZoneName)
    (h1 : rank1Set I s z = []) (h2 : rank2Set I s z = []) :
    ¬ ∃ a, zoneFeasible I s z a := by
  rintro ⟨a, hfe⟩
  have hsec : useSeconds I s z a := hfe.2.1
  have hfh : firstHalf I s z = [] := by
    simp [firstHalf, h1]
  have hff : firstFull I s z = [] := by
    simp [firstFull, h1]
  have hsh : secondHalf I s z = [] := by
    simp [secondHalf, h2]
  have hsf : secondFull I s z = [] := by
    simp [secondFull, h2]
  have hf0 : fszUnits I s z a = 0 := by
    simp [fszUnits, hfh, hff]
  have hs0 : sszUnits I s z a = 0 := by
    simp [sszUnits, hsh, hsf]
  unfold useSeconds at hsec
  rw [hf0, hs0] at hsec
  omega

/-- An instance where student t has no preference entry at all and zone
Z offers two workshops. -/
def instC6 : Inst :=
  { zone_map := [("A", "Z"), ("B", "Z")]
    cost := []
    capKeys := [⟨"A", "Mon", 1⟩, ⟨"B", "Mon", 2⟩]
    full_map := fun _ => false }

/-- C6 counterexample: for a participant with no preference entry in the
zone, the model admits no feasible valuation at all in that zone — in
particular none made of other-tier activities — because UseSeconds
demands at least 2 second-tier units while both preferred tiers are
empty. -/
theorem C6_counterexample :
    ¬ ∃ a, zoneFeasible instC6 "t" "Z" a :=
  zone_infeasible_of_no_pref instC6 "t" "Z" (by decide) (by decide)

/-- C6 (amended): whenever a participant has no preference entry for any
activity of a zone, the zone's constraint block is infeasible: the
UseSeconds constraint requires at least two second-tier units while the
participant's first and second tiers are empty, so no valuation — and in
particular no all-other-tier one — satisfies the model. -/
theorem solve_group_no_pref_zone_infeasible (I : Inst) (s : Student)
    (z : ZoneName)
    (hnp : ∀ w ∈ zoneTitles I z, I.cost.lookup (s, w) = none) :
    ¬ ∃ a, zoneFeasible I s z a := by
  apply zone_infeasible_of_no_pref
  · refine List.filter_eq_nil_iff.mpr ?_
    intro w hw
    simp [prefRank, hnp w hw]
  · refine List.filter_eq_nil_iff.mpr ?_
    intro w hw
    simp [prefRank, hnp w hw]

/-- An instance like instC6 for the witness of C6's amended claim. -/
def instC6w : Inst :=
  { zone_map := [("C", "Y")]
    cost := []
    capKeys := [⟨"C", "Mon", 1⟩]
    full_map := fun _ => false }

/-- Witness for the amended C6 at a concrete input. -/
theorem solve_group_no_pref_witness :
    (∀ w ∈ zoneTitles instC6w "Y",
        instC6w.cost.lookup ("u", w) = none) ∧
    ¬ ∃ a, zoneFeasible instC6w "u" "Y" a :=
  ⟨by decide, solve_group_no_pref_zone_infeasible instC6w "u" "Y" (by decide)⟩

/-! ## C2: the sequencer does not halt on an empty cohort result -/

/-- Zone map of the C2 scenario. -/
def zmC2 : List (Workshop × ZoneName) := [("A", "Z")]

/-- Capacity table of the C2 scenario. -/
def capC2 : List (SlotKey × Int) := [(⟨"A", "Mon", 1⟩, 2)]

/-- An engine output selecting no variable (the infeasibility signal:
solve_group returns no rows). -/
def solNone : Student → SlotKey → Bool := fun _ _ => false

/-- An engine output selecting every variable. -/
def solAll : Student → SlotKey → Bool := fun _ _ => true

/-- C2: the early cohort's solve returns no rows (the infeasibility
signal), yet the cohort phase of main still solves the mid cohort and
returns its assignment — the sequence is not halted. -/
theorem C2_no_halt :
    (solve_group ["early1"] zmC2 capC2 solNone).1 = [] ∧
    (mainCohortPhase zmC2 ["early1"] ["mid1"] [] capC2
        solNone solAll solAll).1
      = [⟨"mid1", "Z", "Mon", 1, "A"⟩] := by
  refine ⟨by decide, by decide⟩

/-! ## C7: residual capacity only decreases and stays non-negative -/

theorem updateCap_lookup (students : List Student)
    (cap_map : List (SlotKey × Int)) (sol : Student → SlotKey → Bool)
    (k : SlotKey) :
    (updateCap students cap_map sol).lookup k
      = (cap_map.lookup k).map
          (fun c => c - (students.countP (fun s => sol s k) : Int)) := by
  unfold updateCap
  exact lookup_map_entry
    (fun k0 c => c - (students.countP (fun s => sol s k0) : Int)) cap_map k

/-- C7: when the engine output respects every capacity constraint of the
model (per slot, at most the remaining capacity many assigned students),
the capacity table after solve_group holds, for every slot key, a value
that is at most the value before the call and is non-negative. -/
theorem solve_group_cap_monotone (students : List Student)
    (zone_map : List (Workshop × ZoneName))
    (cap_map : List (SlotKey × Int)) (sol : Student → SlotKey → Bool)
    (hfeas : ∀ kc ∈ cap_map,
      ((students.countP (fun s => sol s kc.1) : Int) ≤ kc.2)) :
    ∀ k c2,
      ((solve_group students zone_map cap_map sol).2).lookup k = some c2 →
      ∃ c1, cap_map.lookup k = some c1 ∧ c2 ≤ c1 ∧ 0 ≤ c2 := by
  intro k c2 hlk
  unfold solve_group at hlk
  by_cases he : students.isEmpty
  · rw [if_pos he] at hlk
    have hmem := lookup_mem hlk
    have hle := hfeas (k, c2) hmem
    have hnn : (0 : Int) ≤ (students.countP (fun s => sol s k) : Int) :=
      Int.ofNat_nonneg _
    exact ⟨c2, hlk, le_refl _, le_trans hnn hle⟩
  · rw [if_neg he] at hlk
    rw [updateCap_lookup] at hlk
    cases hcl : cap_map.lookup k with
    | none => rw [hcl] at hlk; simp at hlk
    | some c1 =>
      rw [hcl] at hlk
      simp only [Option.map_some'] at hlk
      obtain rfl : c1 - (students.countP (fun s => sol s k) : Int) = c2 := by
        injection hlk
      have hmem := lookup_mem hcl
      have hle : (students.countP (fun s => sol s k) : Int) ≤ c1 :=
        hfeas (k, c1) hmem
      have hnn : (0 : Int) ≤ (students.countP (fun s => sol s k) : Int) :=
        Int.ofNat_nonneg _
      exact ⟨c1, rfl, by omega, by omega⟩

/-- Capacity table for the C7 witness. -/
def capC7 : List (SlotKey × Int) := [(⟨"A", "Mon", 1⟩, 2)]

/-- Zone map for the C7 witness. -/
def zmC7 : List (Workshop × ZoneName) := [("A", "Z")]

/-- Engine output for the C7 witness: one student assigned to the slot. -/
def solC7 : Student → SlotKey → Bool := fun _ _ => true

/-- Witness for C7 at a concrete input. -/
theorem solve_group_cap_monotone_witness :
    (∀ kc ∈ capC7,
      (((["amy"] : List Student).countP (fun s => solC7 s kc.1) : Int)
        ≤ kc.2)) ∧
    ∃ c1, capC7.lookup ⟨"A", "Mon", 1⟩ = some c1 ∧
      (1 : Int) ≤ c1 ∧ (0 : Int) ≤ 1 :=
  ⟨by decide,
    solve_group_cap_monotone ["amy"] zmC7 capC7 solC7 (by decide)
      ⟨"A", "Mon", 1⟩ 1 (by decide)⟩

/-! ## C8: the one-slot-per-day-and-session constraints -/

/-- C8: for every student of the cohort and every day, the model
contains the session-1 and the session-2 OnePerSlot constraint of that
pair; the former requires exactly one assignment covering session 1 (a
session-1 slot or a full-day slot of the day), the latter exactly one
covering session 2 (a session-2 slot or the same full-day sum); and a
valuation selecting exactly one full-day slot of the day and no half-day
slot of the day satisfies both constraints simultaneously. -/
theorem solve_group_one_per_slot (students : List Student)
    (days : List Day) (I : Inst) (s : Student) (d : Day)
    (hs : s ∈ students) (hd : d ∈ days) :
    (⟨s, d, 1⟩ : DayConstraint) ∈ onePerSlotConstraints students days ∧
    (⟨s, d, 2⟩ : DayConstraint) ∈ onePerSlotConstraints students days ∧
    (∀ A : Student → SlotKey → Bool,
      (dayConstraintHolds I ⟨s, d, 1⟩ A ↔ sess1Holds I d (A s)) ∧
      (dayConstraintHolds I ⟨s, d, 2⟩ A ↔ sess2Holds I d (A s))) ∧
    (∀ a : SlotKey → Bool,
      (sess1Terms I d).countP a = 0 →
      (sess2Terms I d).countP a = 0 →
      (fullTerms I d).countP a = 1 →
      sess1Holds I d a ∧ sess2Holds I d a) := by
  refine ⟨?_, ?_, ?_, ?_⟩
  · unfold onePerSlotConstraints
    exact List.mem_flatMap.mpr
      ⟨s, hs, List.mem_flatMap.mpr ⟨d, hd, by simp⟩⟩
  · unfold onePerSlotConstraints
    exact List.mem_flatMap.mpr
      ⟨s, hs, List.mem_flatMap.mpr ⟨d, hd, by simp⟩⟩
  · intro A
    constructor
    · unfold dayConstraintHolds
      simp
    · unfold dayConstraintHolds
      simp
  · intro a h1 h2 hf
    constructor
    · unfold sess1Holds
      rw [h1, hf]
    · unfold sess2Holds
      rw [h2, hf]

/-- An instance with one half-day and one full-day slot on Monday for
the C8 witness. -/
def instC8 : Inst :=
  { zone_map := [("A", "Z"), ("F", "Z")]
    cost := []
    capKeys := [⟨"A", "Mon", 1⟩, ⟨"A", "Mon", 2⟩, ⟨"F", "Mon", 0⟩]
    full_map := fun k => k.t == 0 }

/-- Witness for C8 at a concrete input. -/
theorem solve_group_one_per_slot_witness :
    ("pat" : Student) ∈ (["pat"] : List Student) ∧
    ("Mon" : Day) ∈ (["Mon"] : List Day) ∧
    ((⟨"pat", "Mon", 1⟩ : DayConstraint)
        ∈ onePerSlotConstraints ["pat"] ["Mon"] ∧
      (⟨"pat", "Mon", 2⟩ : DayConstraint)
        ∈ onePerSlotConstraints ["pat"] ["Mon"] ∧
      (∀ A : Student → SlotKey → Bool,
        (dayConstraintHolds instC8 ⟨"pat", "Mon", 1⟩ A ↔
          sess1Holds instC8 "Mon" (A "pat")) ∧
        (dayConstraintHolds instC8 ⟨"pat", "Mon", 2⟩ A ↔
          sess2Holds instC8 "Mon" (A "pat"))) ∧
      (∀ a : SlotKey → Bool,
        (sess1Terms instC8 "Mon").countP a = 0 →
        (sess2Terms instC8 "Mon").countP a = 0 →
        (fullTerms instC8 "Mon").countP a = 1 →
        sess1Holds instC8 "Mon" a ∧ sess2Holds instC8 "Mon" a)) :=
  ⟨by decide, by decide,
    solve_group_one_per_slot ["pat"] ["Mon"] instC8 "pat" "Mon"
      (by decide) (by decide)⟩

/-! ## C10: the capacity mutation is tied one-to-one to the rows -/

theorem countP_key_unique {β : Type} (l : List (SlotKey × β))
    (k : SlotKey) (g : SlotKey → Bool)
    (hnd : (l.map Prod.fst).Nodup) (hk : k ∈ l.map Prod.fst) :
    l.countP (fun kc => (kc.1 == k) && g kc.1)
      = if g k then 1 else 0 := by
  induction l with
  | nil => simp at hk
  | cons e t ih =>
    simp only [List.map_cons, List.nodup_cons] at hnd
    obtain ⟨hnotin, hndt⟩ := hnd
    rw [List.countP_cons]
    by_cases hek : e.1 = k
    · subst hek
      have htz : t.countP (fun kc => (kc.1 == e.1) && g kc.1) = 0 := by
        apply List.countP_eq_zero.mpr
        intro kc hkc habs
        have h1 : kc.1 = e.1 := eq_of_beq (Bool.and_eq_true_iff.mp habs).1
        exact hnotin (h1 ▸ List.mem_map.mpr ⟨kc, hkc, rfl⟩)
      rw [htz]
      simp
    · have hk2 : k ∈ t.map Prod.fst := by
        rcases List.mem_cons.mp hk with h | h
        · exact absurd h.symm hek
        · exact h
      have hhead : ((e.1 == k) && g e.1) = false := by
        rw [beq_eq_false_iff_ne.mpr hek]
        rfl
      rw [ih hndt hk2, hhead]
      simp

theorem solveRows_countP (zm : List (Workshop × ZoneName))
    (students : List Student) (cap_map : List (SlotKey × Int))
    (sol : Student → SlotKey → Bool) (k : SlotKey)
    (hnd : (cap_map.map Prod.fst).Nodup)
    (hk : k ∈ cap_map.map Prod.fst) :
    (solveRows zm students cap_map sol).countP (fun r => rowSlot r == k)
      = students.countP (fun s => sol s k) := by
  induction students with
  | nil => simp [solveRows]
  | cons s ss ih =>
    unfold solveRows at ih ⊢
    rw [List.flatMap_cons, List.countP_append, ih, List.countP_cons]
    have hone :
        ((cap_map.filter (fun kc => sol s kc.1)).map
            (fun kc => mkRow zm s kc.1)).countP (fun r => rowSlot r == k)
          = if sol s k then 1 else 0 := by
      rw [List.countP_map, List.countP_filter]
      exact countP_key_unique cap_map k (fun k0 => sol s k0) hnd hk
    rw [hone]
    exact Nat.add_comm _ _

theorem updateCap_id_of_no_sel (students : List Student)
    (cap_map : List (SlotKey × Int)) (sol : Student → SlotKey → Bool)
    (h : ∀ kc ∈ cap_map, ∀ s ∈ students, sol s kc.1 = false) :
    updateCap students cap_map sol = cap_map := by
  unfold updateCap
  have hcongr : ∀ kc ∈ cap_map,
      ((kc.1, kc.2 - (students.countP (fun s => sol s kc.1) : Int))
          : SlotKey × Int)
        = id kc := by
    intro kc hkc
    have hc : students.countP (fun s => sol s kc.1) = 0 :=
      List.countP_eq_zero.mpr (fun s hs => by simp [h kc hkc s hs])
    rw [hc]
    simp
  rw [List.map_congr_left hcongr, List.map_id]

/-- C10: the capacity mutation of solve_group is tied one-to-one to its
returned rows: each slot's capacity drops by exactly the number of
returned rows occupying that slot, and when the returned row list is
empty (empty cohort, or an engine output selecting no variable) the
capacity table is left entirely unchanged. -/
theorem solve_group_atomic (students : List Student)
    (zm : List (Workshop × ZoneName)) (cap_map : List (SlotKey × Int))
    (sol : Student → SlotKey → Bool)
    (hnd : (cap_map.map Prod.fst).Nodup) :
    (∀ k c1, cap_map.lookup k = some c1 →
      ((solve_group students zm cap_map sol).2).lookup k
        = some (c1 -
            (((solve_group students zm cap_map sol).1).countP
              (fun r => rowSlot r == k) : Int))) ∧
    ((solve_group students zm cap_map sol).1 = [] →
      (solve_group students zm cap_map sol).2 = cap_map) := by
  unfold solve_group
  by_cases he : students.isEmpty
  · rw [if_pos he]
    constructor
    · intro k c1 hcl
      show cap_map.lookup k
        = some (c1 - (([] : List Row).countP (fun r => rowSlot r == k) : Int))
      simp [hcl]
    · intro _
      rfl
  · rw [if_neg he]
    constructor
    · intro k c1 hcl
      have hk : k ∈ cap_map.map Prod.fst :=
        List.mem_map.mpr ⟨(k, c1), lookup_mem hcl, rfl⟩
      show (updateCap students cap_map sol).lookup k
        = some (c1 -
            ((solveRows zm students cap_map sol).countP
              (fun r => rowSlot r == k) : Int))
      rw [updateCap_lookup, hcl, solveRows_countP zm students cap_map sol k hnd hk]
      rfl
    · intro hrows
      have hrows2 : solveRows zm students cap_map sol = [] := hrows
      unfold solveRows at hrows2
      have hnosel : ∀ kc ∈ cap_map, ∀ s ∈ students, sol s kc.1 = false := by
        intro kc hkc s hs
        have h1 := List.flatMap_eq_nil_iff.mp hrows2 s hs
        have h2 : cap_map.filter (fun kc => sol s kc.1) = [] :=
          List.map_eq_nil_iff.mp h1
        have h3 := List.filter_eq_nil_iff.mp h2 kc hkc
        simpa using h3
      show updateCap students cap_map sol = cap_map
      exact updateCap_id_of_no_sel students cap_map sol hnosel

/-- Capacity table for the C10 witness. -/
def capC10 : List (SlotKey × Int) := [(⟨"A", "Mon", 1⟩, 3)]

/-- Zone map for the C10 witness. -/
def zmC10 : List (Workshop × ZoneName) := [("A", "Z")]

/-- Engine output for the C10 witness. -/
def solC10 : Student → SlotKey → Bool := fun _ _ => true

/-- Witness for C10 at a concrete input. -/
theorem solve_group_atomic_witness :
    ((capC10.map Prod.fst).Nodup) ∧
    ((∀ k c1, capC10.lookup k = some c1 →
        ((solve_group ["bo"] zmC10 capC10 solC10).2).lookup k
          = some (c1 -
              (((solve_group ["bo"] zmC10 capC10 solC10).1).countP
                (fun r => rowSlot r == k) : Int))) ∧
      ((solve_group ["bo"] zmC10 capC10 solC10).1 = [] →
        (solve_group ["bo"] zmC10 capC10 solC10).2 = capC10)) :=
  ⟨by decide, solve_group_atomic ["bo"] zmC10 capC10 solC10 (by decide)⟩

/-! ## C9: a capacity workshop missing from the preferences -/

theorem checkZones_error (zm : List (Workshop × ZoneName))
    (keys : List SlotKey) (h : ∃ k ∈ keys, zm.lookup k.w = none) :
    ∃ w, checkZones zm keys = Except.error w := by
  induction keys with
  | nil =>
    obtain ⟨k, hk, -⟩ := h
    simp at hk
  | cons k ks ih =>
    cases hl : zm.lookup k.w with
    | none => exact ⟨k.w, by simp [checkZones, hl]⟩
    | some z =>
      obtain ⟨k0, hk0, hnone⟩ := h
      rcases List.mem_cons.mp hk0 with rfl | hmem
      · rw [hl] at hnone
        cases hnone
      · obtain ⟨w, hw⟩ := ih ⟨k0, hmem, hnone⟩
        exact ⟨w, by simp [checkZones, hl, hw]⟩

theorem checkZones_ok (zm : List (Workshop × ZoneName))
    (keys : List SlotKey) (h : ∀ k ∈ keys, (zm.lookup k.w).isSome) :
    checkZones zm keys = Except.ok () := by
  induction keys with
  | nil => rfl
  | cons k ks ih =>
    obtain ⟨z, hz⟩ :=
      Option.isSome_iff_exists.mp (h k (List.mem_cons_self _ _))
    have hrest := ih (fun k0 hk0 => h k0 (List.mem_cons_of_mem _ hk0))
    simp [checkZones, hz, hrest]

theorem buildRowsChecked_ok (zm : List (Workshop × ZoneName))
    (pairs : List (Student × SlotKey))
    (h : ∀ p ∈ pairs, (zm.lookup p.2.w).isSome) :
    ∃ rs, buildRowsChecked zm pairs = Except.ok rs := by
  induction pairs with
  | nil => exact ⟨[], rfl⟩
  | cons p ps ih =>
    obtain ⟨s, k⟩ := p
    obtain ⟨z, hz⟩ :=
      Option.isSome_iff_exists.mp (h (s, k) (List.mem_cons_self _ _))
    obtain ⟨rs, hrs⟩ := ih (fun q hq => h q (List.mem_cons_of_mem _ hq))
    exact ⟨⟨s, z, k.d, k.t, k.w⟩ :: rs, by simp [buildRowsChecked, hz, hrs]⟩

/-- C9: for a non-empty cohort drawn from a non-empty preference table
(so the zone list is non-empty), solve_group fails with a lookup error
exactly when some workshop of the capacity table has no preference
record (is missing from the zone map): if such a workshop exists the
run errors instead of scheduling or skipping it, and if every capacity
workshop occurs in the zone map the run returns a result. -/
theorem solve_group_checked_total_iff (students : List Student)
    (zm : List (Workshop × ZoneName)) (cap_map : List (SlotKey × Int))
    (sol : Student → SlotKey → Bool)
    (hs : students ≠ []) (hz : zonesOf zm ≠ []) :
    ((∃ kc ∈ cap_map, zm.lookup kc.1.w = none) →
      ∃ w, solve_group_checked students zm cap_map sol
        = Except.error w) ∧
    ((∀ kc ∈ cap_map, (zm.lookup kc.1.w).isSome) →
      ∃ res, solve_group_checked students zm cap_map sol
        = Except.ok res) := by
  have hse : students.isEmpty = false := by
    simp [List.isEmpty_iff, hs]
  have hze : (zonesOf zm).isEmpty = false := by
    simp [List.isEmpty_iff, hz]
  constructor
  · rintro ⟨kc, hkc, hnone⟩
    obtain ⟨w, hw⟩ := checkZones_error zm (cap_map.map Prod.fst)
      ⟨kc.1, List.mem_map.mpr ⟨kc, hkc, rfl⟩, hnone⟩
    exact ⟨w, by simp [solve_group_checked, hse, hze, hw]⟩
  · intro hall
    have hok := checkZones_ok zm (cap_map.map Prod.fst)
      (fun k hk => by
        obtain ⟨kc, hkc, rfl⟩ := List.mem_map.mp hk
        exact hall kc hkc)
    have hsel : ∀ p ∈ selectedPairs students cap_map sol,
        (zm.lookup p.2.w).isSome := by
      intro p hp
      unfold selectedPairs at hp
      obtain ⟨s, -, hp2⟩ := List.mem_flatMap.mp hp
      obtain ⟨kc, hkcf, rfl⟩ := List.mem_map.mp hp2
      exact hall kc (List.mem_filter.mp hkcf).1
    obtain ⟨rs, hrs⟩ := buildRowsChecked_ok zm _ hsel
    exact ⟨(rs, updateCap students cap_map sol),
      by simp [solve_group_checked, hse, hze, hok, hrs]⟩

/-- Zone map for the C9 witness: only workshop A has preference
records. -/
def zmC9 : List (Workshop × ZoneName) := [("A", "Z")]

/-- A capacity table naming workshop B, which has no preference
record. -/
def capC9bad : List (SlotKey × Int) := [(⟨"B", "Mon", 1⟩, 1)]

/-- A capacity table naming only workshop A. -/
def capC9ok : List (SlotKey × Int) := [(⟨"A", "Mon", 1⟩, 1)]

/-- Engine output for the C9 witness. -/
def solC9 : Student → SlotKey → Bool := fun _ _ => false

/-- Witness for C9 at concrete inputs: the missing workshop B makes the
solve error, and with every workshop present the solve returns. -/
theorem solve_group_checked_witness :
    (∃ w, solve_group_checked ["cal"] zmC9 capC9bad solC9
      = Except.error w) ∧
    (∃ res, solve_group_checked ["cal"] zmC9 capC9ok solC9
      = Except.ok res) :=
  ⟨(solve_group_checked_total_iff ["cal"] zmC9 capC9bad solC9
      (by decide) (by decide)).1 (by decide),
   (solve_group_checked_total_iff ["cal"] zmC9 capC9ok solC9
      (by decide) (by decide)).2 (by decide)⟩

end AssignWorkshops
